import Mathlib

/-!  Verification development for the artillery processor utilities:
     a shallow embedding of the template resolver, the AWS Signature V4
     signing pipeline, the response-logging hook and the CSV loader,
     together with proofs of the specified properties.  -/

/-- JavaScript values as they appear in Artillery variable contexts and in
structured `json` request payloads. -/
inductive JsonVal where
  | jNull : JsonVal
  | jBool : Bool → JsonVal
  | jNum : Int → JsonVal
  | jStr : String → JsonVal
  | jArr : List JsonVal → JsonVal
  | jObj : List (String × JsonVal) → JsonVal

/-- Escapes one character for a JSON string literal (quote and backslash; the
claims exercise only strings free of control characters). -/
def jsonEscapeChar (c : Char) : String :=
  if c = '"' then "\\\"" else if c = '\\' then "\\\\" else String.singleton c

/-- Escapes a string for inclusion in JSON output. -/
def jsonEscape (s : String) : String :=
  String.join (s.data.map jsonEscapeChar)

mutual

/-- Model of `JSON.stringify` (no formatting arguments) on embedded values. -/
def stringify : JsonVal → String
  | .jNull => "null"
  | .jBool true => "true"
  | .jBool false => "false"
  | .jNum n => toString n
  | .jStr s => "\"" ++ jsonEscape s ++ "\""
  | .jArr xs => "[" ++ stringifyArr xs ++ "]"
  | .jObj fs => "\x7b" ++ stringifyObj fs ++ "\x7d"

/-- Comma-joined stringification of a JSON array's elements. -/
def stringifyArr : List JsonVal → String
  | [] => ""
  | [x] => stringify x
  | x :: y :: xs => stringify x ++ "," ++ stringifyArr (y :: xs)

/-- Comma-joined stringification of a JSON object's fields. -/
def stringifyObj : List (String × JsonVal) → String
  | [] => ""
  | [(k, v)] => "\"" ++ jsonEscape k ++ "\":" ++ stringify v
  | (k, v) :: f :: fs => "\"" ++ jsonEscape k ++ "\":" ++ stringify v ++ "," ++ stringifyObj (f :: fs)

end

mutual

/-- Model of the JavaScript `String(value)` coercion used on variable values. -/
def jsString : JsonVal → String
  | .jNull => "null"
  | .jBool true => "true"
  | .jBool false => "false"
  | .jNum n => toString n
  | .jStr s => s
  | .jArr xs => jsStringArr xs
  | .jObj _ => "[object Object]"

/-- String coercion of an array: elements joined with commas, as JS does. -/
def jsStringArr : List JsonVal → String
  | [] => ""
  | [x] => jsString x
  | x :: y :: xs => jsString x ++ "," ++ jsStringArr (y :: xs)

end

/-- An Artillery variable context (`context.vars`): bindings from placeholder
names to values, looked up by exact key. -/
abbrev Vars := List (String × JsonVal)

/-- Association-list lookup on the variable context; `none` plays the role of
the JavaScript `undefined` test `vars[key] !== undefined`. -/
def lookupVar : Vars → String → Option JsonVal
  | [], _ => none
  | (k, v) :: rest, key => if k = key then some v else lookupVar rest key

/-- Model of the JavaScript `String.prototype.trim()`: removes leading and
trailing whitespace characters. -/
def jsTrim (s : String) : String :=
  String.mk (((s.data.dropWhile Char.isWhitespace).reverse.dropWhile Char.isWhitespace).reverse)

/-- The replacement callback of `resolveTemplate`: the captured key is trimmed
and looked up; a bound value is coerced with `String(...)`, an unbound key
becomes the empty string. -/
def repl (vars : Vars) (key : String) : String :=
  match lookupVar vars (jsTrim key) with
  | some v => jsString v
  | none => ""

/-- One-pass scanner implementing the JavaScript global-regex replacement of
`resolveTemplate` (src/unnamed/part_000 lines 137-143).  The regex is
two opening braces, an optional whitespace run, a nonempty run of
non-closing-brace characters (captured), optional whitespace, and two closing
braces; matching is leftmost, and scanning resumes after each match.  The
first argument is `none` while scanning and `some acc` after an opening
marker, with `acc` holding the (reversed) captured run so far; since the run
is greedy and the capture is trimmed before lookup, accumulating the
whitespace into the capture is observationally identical to the regex. -/
def resolveGo (vars : Vars) : Option (List Char) → List Char → List Char
  | none, [] => []
  | none, c :: rest =>
      if c = '\x7b' then
        match rest with
        | [] => [c]
        | c2 :: rest2 =>
          if c2 = '\x7b' then resolveGo vars (some []) rest2
          else c :: c2 :: resolveGo vars none rest2
      else c :: resolveGo vars none rest
  | some acc, [] => '\x7b' :: '\x7b' :: acc.reverse
  | some acc, c :: rest =>
      if c = '\x7d' then
        match rest with
        | [] => '\x7b' :: '\x7b' :: acc.reverse ++ ['\x7d']
        | c2 :: rest2 =>
          if c2 = '\x7d' then
            if acc = [] then '\x7b' :: '\x7b' :: '\x7d' :: '\x7d' :: resolveGo vars none rest2
            else (repl vars (String.mk acc.reverse)).data ++ resolveGo vars none rest2
          else
            '\x7b' :: '\x7b' :: acc.reverse ++ '\x7d' ::
              (if c2 = '\x7b' then
                 match rest2 with
                 | [] => [c2]
                 | c3 :: rest3 =>
                   if c3 = '\x7b' then resolveGo vars (some []) rest3
                   else c2 :: c3 :: resolveGo vars none rest3
               else c2 :: resolveGo vars none rest2)
      else resolveGo vars (some (c :: acc)) rest
termination_by structural _ cs => cs

/-- Model of `resolveTemplate(str, vars)` from src/unnamed/part_000: replaces
every `\x7b\x7b name \x7d\x7d` placeholder using the variable context.  The
JavaScript guard for non-string or falsy input is the identity on the string
inputs representable here (the empty string maps to itself). -/
def resolveTemplate (s : String) (vars : Vars) : String :=
  String.mk (resolveGo vars none s.data)

/-- After a nonempty non-brace run has started, decides whether the run is
closed by a doubled closing brace at its end. -/
def scanTail : List Char → Bool
  | [] => false
  | c :: rest =>
      if c = '\x7d' then
        match rest with
        | [] => false
        | c2 :: _ => if c2 = '\x7d' then true else false
      else scanTail rest

/-- Decides whether a placeholder body (nonempty non-brace run then two closing
braces) begins exactly here, just after an opening marker. -/
def scanMatch : List Char → Bool
  | [] => false
  | c :: rest => if c = '\x7d' then false else scanTail rest

/-- Decides whether a complete placeholder starts at this position. -/
def startsPlaceholder : List Char → Bool
  | c :: c2 :: rest => if c = '\x7b' then if c2 = '\x7b' then scanMatch rest else false else false
  | _ => false

/-- Decides whether any position of the character list starts a placeholder,
i.e. whether the `resolveTemplate` regex has a match. -/
def hasPlaceholderChars : List Char → Bool
  | [] => false
  | c :: rest => startsPlaceholder (c :: rest) || hasPlaceholderChars rest

/-- Decides whether a string contains a `\x7b\x7b...\x7d\x7d` placeholder that
the resolver would rewrite. -/
def hasPlaceholder (s : String) : Bool :=
  hasPlaceholderChars s.data

/-- Eta for strings: rebuilding a string from its character list is the
identity. -/
theorem stringMkData (s : String) : String.mk s.data = s := by
  cases s
  rfl

/-- Appending at the character-list level agrees with string append. -/
theorem stringMkAppend (a : String) (l : List Char) :
    String.mk (a.data ++ l) = a ++ String.mk l := by
  cases a
  rfl

/-- Unfolding: the scanner on an exhausted input emits the unmatched opening
marker and the pending run verbatim. -/
theorem resolveGo_scan_nil (vars : Vars) (acc : List Char) :
    resolveGo vars (some acc) [] = '\x7b' :: '\x7b' :: acc.reverse := rfl

/-- Unfolding: a doubled closing brace ends the pending run; a nonempty run is
replaced, an empty one is emitted verbatim. -/
theorem resolveGo_close (vars : Vars) (acc : List Char) (rest : List Char) :
    resolveGo vars (some acc) ('\x7d' :: '\x7d' :: rest) =
      if acc = [] then '\x7b' :: '\x7b' :: '\x7d' :: '\x7d' :: resolveGo vars none rest
      else (repl vars (String.mk acc.reverse)).data ++ resolveGo vars none rest := by
  rw [resolveGo.eq_def]
  simp

/-- Unfolding: a single closing brace at the end of input fails the match. -/
theorem resolveGo_close_one (vars : Vars) (acc : List Char) :
    resolveGo vars (some acc) ['\x7d'] = '\x7b' :: '\x7b' :: acc.reverse ++ ['\x7d'] := by
  rw [resolveGo.eq_def]
  simp

/-- Unfolding: a closing brace followed by a non-closing character fails the
match; scanning resumes right after the single closing brace. -/
theorem resolveGo_fail (vars : Vars) (acc : List Char) (c : Char) (rest : List Char)
    (h : c ≠ '\x7d') :
    resolveGo vars (some acc) ('\x7d' :: c :: rest) =
      '\x7b' :: '\x7b' :: acc.reverse ++ '\x7d' :: resolveGo vars none (c :: rest) := by
  rw [resolveGo.eq_def]
  by_cases hb : c = '\x7b'
  · subst hb
    cases rest with
    | nil =>
        have hone : resolveGo vars none ['\x7b'] = ['\x7b'] := by
          rw [resolveGo.eq_def]
          simp
        simp [h, hone]
    | cons c3 rest3 =>
      by_cases h3 : c3 = '\x7b' <;> rw [resolveGo.eq_def] <;> simp [h, h3]
  · rw [resolveGo.eq_def]
    simp [h, hb]

/-- Unfolding: a non-closing character extends the pending run. -/
theorem resolveGo_push (vars : Vars) (acc : List Char) (c : Char) (rest : List Char)
    (h : c ≠ '\x7d') :
    resolveGo vars (some acc) (c :: rest) = resolveGo vars (some (c :: acc)) rest := by
  rw [resolveGo.eq_def]
  simp [h]

/-- Unfolding: a doubled opening brace enters scan mode. -/
theorem resolveGo_open (vars : Vars) (rest : List Char) :
    resolveGo vars none ('\x7b' :: '\x7b' :: rest) = resolveGo vars (some []) rest := by
  rw [resolveGo.eq_def]
  simp

/-- Unfolding: a character other than an opening brace is copied. -/
theorem resolveGo_step_one (vars : Vars) (c : Char) (rest : List Char) (h : c ≠ '\x7b') :
    resolveGo vars none (c :: rest) = c :: resolveGo vars none rest := by
  rw [resolveGo.eq_def]
  cases rest with
  | nil => simp [h]
  | cons c2 rest2 => simp [h]

/-- Unfolding: an opening brace not followed by another one is copied together
with its successor. -/
theorem resolveGo_open_fail (vars : Vars) (c2 : Char) (rest2 : List Char) (h : c2 ≠ '\x7b') :
    resolveGo vars none ('\x7b' :: c2 :: rest2) = '\x7b' :: c2 :: resolveGo vars none rest2 := by
  rw [resolveGo.eq_def]
  simp [h]

/-- The scanner consumes a run of non-closing characters in one sweep and
performs the replacement at the doubled closing brace. -/
theorem resolveGo_scan (vars : Vars) (ks : List Char) (h : ∀ c ∈ ks, c ≠ '\x7d') :
    ∀ acc suf, resolveGo vars (some acc) (ks ++ '\x7d' :: '\x7d' :: suf) =
      if acc.reverse ++ ks = [] then '\x7b' :: '\x7b' :: '\x7d' :: '\x7d' :: resolveGo vars none suf
      else (repl vars (String.mk (acc.reverse ++ ks))).data ++ resolveGo vars none suf := by
  induction ks with
  | nil =>
      intro acc suf
      rw [List.nil_append, resolveGo_close]
      simp [List.reverse_eq_nil_iff]
  | cons k ks ih =>
      intro acc suf
      have hk : k ≠ '\x7d' := h k (by simp)
      rw [List.cons_append, resolveGo_push vars acc k _ hk,
        ih (fun c hc => h c (by simp [hc])) (k :: acc) suf]
      simp [List.reverse_cons, List.append_assoc]

/-- Core computation for a placeholder at the head of the input: the resolver
replaces it via the replacement callback and continues on the suffix. -/
theorem resolveTemplate_head_placeholder (name suf : String) (vars : Vars)
    (hne : name.data ≠ []) (hnb : ∀ c ∈ name.data, c ≠ '\x7d') :
    resolveTemplate ("\x7b\x7b" ++ name ++ "\x7d\x7d" ++ suf) vars
      = repl vars name ++ resolveTemplate suf vars := by
  have hdata : ("\x7b\x7b" ++ name ++ "\x7d\x7d" ++ suf).data
      = '\x7b' :: '\x7b' :: (name.data ++ ('\x7d' :: '\x7d' :: suf.data)) := by
    simp [String.data_append]
  rw [resolveTemplate, hdata, resolveGo_open, resolveGo_scan vars name.data hnb [] suf.data]
  simp only [List.reverse_nil, List.nil_append]
  rw [if_neg hne, stringMkData, stringMkAppend]
  rfl

/-- Claim C2: for every placeholder whose (nonempty, brace-free) captured name
is trimmed and looked up in the variable context, `resolveTemplate`
substitutes the bound value coerced to a string, and substitutes the empty
string when the trimmed name is unbound; the resolver is a total function on
all string inputs and contexts (it never throws). -/
theorem resolveTemplate_substitutes (name suf : String) (vars : Vars)
    (hne : name.data ≠ []) (hnb : ∀ c ∈ name.data, c ≠ '\x7d') :
    (∀ v, lookupVar vars (jsTrim name) = some v →
      resolveTemplate ("\x7b\x7b" ++ name ++ "\x7d\x7d" ++ suf) vars
        = jsString v ++ resolveTemplate suf vars)
    ∧ (lookupVar vars (jsTrim name) = none →
      resolveTemplate ("\x7b\x7b" ++ name ++ "\x7d\x7d" ++ suf) vars
        = "" ++ resolveTemplate suf vars) := by
  have key := resolveTemplate_head_placeholder name suf vars hne hnb
  constructor
  · intro v hv
    rw [key]
    simp [repl, hv]
  · intro hv
    rw [key]
    simp [repl, hv]

/-- Witness for claim C2: the placeholder `name`, bound to the string value
`42` in the context, is substituted, and the suffix is resolved behind it. -/
theorem resolveTemplate_substitutes_witness :
    ("name" : String).data ≠ [] ∧ (∀ c ∈ ("name" : String).data, c ≠ '\x7d') ∧
    resolveTemplate ("\x7b\x7b" ++ "name" ++ "\x7d\x7d" ++ " tail") [("name", JsonVal.jStr "42")]
      = jsString (JsonVal.jStr "42") ++ resolveTemplate " tail" [("name", JsonVal.jStr "42")] :=
  ⟨by decide, by decide,
    (resolveTemplate_substitutes "name" " tail" [("name", JsonVal.jStr "42")]
      (by decide) (by decide)).1 (JsonVal.jStr "42") rfl⟩

/-- Dropping a prefix preserves freedom from placeholders. -/
theorem hasPlaceholderChars_suffix (a b : List Char)
    (h : hasPlaceholderChars (a ++ b) = false) : hasPlaceholderChars b = false := by
  induction a with
  | nil => simpa using h
  | cons x a ih =>
      apply ih
      rw [List.cons_append] at h
      simp [hasPlaceholderChars] at h
      exact h.2

/-- A nonempty brace-free run closed by a doubled closing brace is detected by
the tail scanner. -/
theorem scanTail_complete (ks r : List Char) (h : ∀ c ∈ ks, c ≠ '\x7d') :
    scanTail (ks ++ '\x7d' :: '\x7d' :: r) = true := by
  induction ks with
  | nil => simp [scanTail]
  | cons k ks ih =>
      have hk : k ≠ '\x7d' := h k (by simp)
      rw [List.cons_append]
      simp [scanTail, hk]
      exact ih (fun c hc => h c (by simp [hc]))

/-- A nonempty brace-free run closed by a doubled closing brace is a
placeholder body. -/
theorem scanMatch_complete (ks r : List Char) (hne : ks ≠ []) (h : ∀ c ∈ ks, c ≠ '\x7d') :
    scanMatch (ks ++ '\x7d' :: '\x7d' :: r) = true := by
  cases ks with
  | nil => exact absurd rfl hne
  | cons k ks =>
      have hk : k ≠ '\x7d' := h k (by simp)
      rw [List.cons_append]
      simp [scanMatch, hk]
      exact scanTail_complete ks r (fun c hc => h c (by simp [hc]))

/-- On input without any placeholder the resolver copies its input: scanning
mode reproduces the text, and a pending (necessarily unmatched) run is
emitted verbatim. -/
theorem resolveGo_no_placeholder (vars : Vars) :
    ∀ n (cs : List Char), cs.length ≤ n →
      (hasPlaceholderChars cs = false → resolveGo vars none cs = cs)
      ∧ (∀ acc, (∀ c ∈ acc, c ≠ '\x7d') →
          hasPlaceholderChars ('\x7b' :: '\x7b' :: (acc.reverse ++ cs)) = false →
          resolveGo vars (some acc) cs = '\x7b' :: '\x7b' :: acc.reverse ++ cs) := by
  intro n
  induction n with
  | zero =>
      intro cs hlen
      have hcs : cs = [] := List.length_eq_zero.mp (Nat.le_zero.mp hlen)
      subst hcs
      constructor
      · intro _
        rfl
      · intro acc _ _
        rw [resolveGo_scan_nil]
        simp
  | succ n ih =>
      intro cs hlen
      cases cs with
      | nil =>
          constructor
          · intro _
            rfl
          · intro acc _ _
            rw [resolveGo_scan_nil]
            simp
      | cons c rest =>
          have hr : rest.length ≤ n := by
            simp only [List.length_cons] at hlen
            omega
          constructor
          · intro hno
            have hparts : startsPlaceholder (c :: rest) = false ∧ hasPlaceholderChars rest = false := by
              simpa [hasPlaceholderChars] using hno
            by_cases hc : c = '\x7b'
            · subst hc
              cases rest with
              | nil =>
                  rw [resolveGo.eq_def]
                  simp
              | cons c2 rest2 =>
                  have hr2 : rest2.length ≤ n := by
                    simp only [List.length_cons] at hlen
                    omega
                  by_cases hc2 : c2 = '\x7b'
                  · subst hc2
                    rw [resolveGo_open]
                    have h2 := (ih rest2 hr2).2 [] (by simp) (by simpa using hno)
                    simpa using h2
                  · rw [resolveGo_open_fail vars c2 rest2 hc2]
                    have hrest2 : hasPlaceholderChars rest2 = false := by
                      have h3 := hparts.2
                      simp [hasPlaceholderChars] at h3
                      exact h3.2
                    rw [(ih rest2 hr2).1 hrest2]
            · rw [resolveGo_step_one vars c rest hc, (ih rest hr).1 hparts.2]
          · intro acc hacc hno
            by_cases hc : c = '\x7d'
            · subst hc
              cases rest with
              | nil =>
                  rw [resolveGo_close_one]
              | cons c2 rest2 =>
                  have hr2 : rest2.length ≤ n := by
                    simp only [List.length_cons] at hlen
                    omega
                  by_cases hc2 : c2 = '\x7d'
                  · subst hc2
                    rcases acc with _ | ⟨a, as⟩
                    · rw [resolveGo_close, if_pos rfl]
                      have hrest2 : hasPlaceholderChars rest2 = false := by
                        apply hasPlaceholderChars_suffix ['\x7b', '\x7b', '\x7d', '\x7d'] rest2
                        simpa using hno
                      rw [(ih rest2 hr2).1 hrest2]
                      simp
                    · exfalso
                      have hsp : startsPlaceholder
                          ('\x7b' :: '\x7b' :: ((a :: as).reverse ++ '\x7d' :: '\x7d' :: rest2)) = true := by
                        simp only [startsPlaceholder, if_pos rfl]
                        exact scanMatch_complete (a :: as).reverse rest2 (by simp)
                          (fun x hx => hacc x (List.mem_reverse.mp hx))
                      have htrue : hasPlaceholderChars
                          ('\x7b' :: '\x7b' :: ((a :: as).reverse ++ '\x7d' :: '\x7d' :: rest2)) = true := by
                        simp only [hasPlaceholderChars]
                        rw [hsp]
                        simp
                      exact absurd (hno.symm.trans htrue) (by decide)
                  · rw [resolveGo_fail vars acc c2 rest2 hc2]
                    have hsub : hasPlaceholderChars (c2 :: rest2) = false := by
                      apply hasPlaceholderChars_suffix ('\x7b' :: '\x7b' :: acc.reverse ++ ['\x7d']) (c2 :: rest2)
                      simpa [List.append_assoc] using hno
                    rw [(ih (c2 :: rest2) hr).1 hsub]
            · rw [resolveGo_push vars acc c rest hc]
              have h2 := (ih rest hr).2 (c :: acc)
                (by
                  intro x hx
                  rcases List.mem_cons.mp hx with h | h
                  · subst h
                    exact hc
                  · exact hacc x h)
                (by
                  have hsh : '\x7b' :: '\x7b' :: ((c :: acc).reverse ++ rest)
                      = '\x7b' :: '\x7b' :: (acc.reverse ++ c :: rest) := by
                    simp [List.reverse_cons, List.append_assoc]
                  rw [hsh]
                  exact hno)
              rw [h2]
              simp [List.reverse_cons, List.append_assoc]

/-- Claim C5: template resolution is the identity on strings with no
placeholder marker, for every variable context. -/
theorem resolveTemplate_id_of_no_placeholder (s : String) (vars : Vars)
    (h : hasPlaceholder s = false) : resolveTemplate s vars = s := by
  rw [resolveTemplate,
    (resolveGo_no_placeholder vars s.data.length s.data le_rfl).1 (by simpa [hasPlaceholder] using h),
    stringMkData]

/-- Witness for claim C5: a concrete marker-free string is left unchanged even
when the context binds names occurring in it. -/
theorem resolveTemplate_id_witness :
    hasPlaceholder "hello \x7bworld\x7d !" = false ∧
    resolveTemplate "hello \x7bworld\x7d !" [("world", JsonVal.jStr "x")] = "hello \x7bworld\x7d !" :=
  ⟨by decide, resolveTemplate_id_of_no_placeholder _ _ (by decide)⟩

/-- Truncation to a 32-bit word. -/
def mod32 (n : Nat) : Nat := n % 4294967296

/-- Right rotation of a 32-bit word. -/
def rotr32 (k n : Nat) : Nat := mod32 ((n >>> k) ||| (n <<< (32 - k)))

/-- UTF-8 encoding of one character. -/
def utf8Bytes (c : Char) : List Nat :=
  let n := c.toNat
  if n < 128 then [n]
  else if n < 2048 then [192 + n / 64, 128 + n % 64]
  else if n < 65536 then [224 + n / 4096, 128 + (n / 64) % 64, 128 + n % 64]
  else [240 + n / 262144, 128 + (n / 4096) % 64, 128 + (n / 64) % 64, 128 + n % 64]

/-- UTF-8 byte sequence of a string. -/
def toBytes (s : String) : List Nat := (s.data.map utf8Bytes).flatten

/-- Big-endian bytes of a number, in a field of k bytes. -/
def natToBytesBE (k n : Nat) : List Nat :=
  (List.range k).map (fun i => (n >>> (8 * (k - 1 - i))) % 256)

/-- SHA-256 round constants. -/
def sha256K : List Nat :=
  [1116352408, 1899447441, 3049323471, 3921009573, 961987163, 1508970993,
   2453635748, 2870763221, 3624381080, 310598401, 607225278, 1426881987,
   1925078388, 2162078206, 2614888103, 3248222580, 3835390401, 4022224774,
   264347078, 604807628, 770255983, 1249150122, 1555081692, 1996064986,
   2554220882, 2821834349, 2952996808, 3210313671, 3336571891, 3584528711,
   113926993, 338241895, 666307205, 773529912, 1294757372, 1396182291,
   1695183700, 1986661051, 2177026350, 2456956037, 2730485921, 2820302411,
   3259730800, 3345764771, 3516065817, 3600352804, 4094571909, 275423344,
   430227734, 506948616, 659060556, 883997877, 958139571, 1322822218,
   1537002063, 1747873779, 1955562222, 2024104815, 2227730452, 2361852424,
   2428436474, 2756734187, 3204031479, 3329325298]

/-- SHA-256 initial hash state. -/
def sha256H0 : List Nat :=
  [1779033703, 3144134277, 1013904242, 2773480762,
   1359893119, 2600822924, 528734635, 1541459225]

/-- SHA-256 padding: a 0x80 byte, zeros to 56 mod 64, and the 64-bit
big-endian bit length. -/
def sha256Pad (msg : List Nat) : List Nat :=
  msg ++ 128 :: List.replicate ((119 - (msg.length % 64)) % 64) 0 ++ natToBytesBE 8 (msg.length * 8)

/-- Splits a byte sequence into 64-byte blocks. -/
def chunks64 : List Nat → List (List Nat)
  | [] => []
  | b :: rest => ((b :: rest).take 64) :: chunks64 (rest.drop 63)
termination_by l => l.length
decreasing_by
  simp [List.length_drop]
  omega

/-- Packs bytes into big-endian 32-bit words. -/
def bytesToWords : List Nat → List Nat
  | a :: b :: c :: d :: rest => (((a * 256 + b) * 256 + c) * 256 + d) :: bytesToWords rest
  | _ => []

/-- SHA-256 message-schedule extension from 16 to 64 words. -/
def extendW (w : List Nat) : List Nat :=
  (List.range 48).foldl (fun acc i =>
    let x := acc.getD (i + 1) 0
    let s0 := mod32 (rotr32 7 x ^^^ rotr32 18 x ^^^ (x >>> 3))
    let y := acc.getD (i + 14) 0
    let s1 := mod32 (rotr32 17 y ^^^ rotr32 19 y ^^^ (y >>> 10))
    acc ++ [mod32 (acc.getD i 0 + s0 + acc.getD (i + 9) 0 + s1)]) w

/-- SHA-256 compression of one 64-byte block into the running state. -/
def compress256 (h : List Nat) (chunk : List Nat) : List Nat :=
  let w := extendW (bytesToWords chunk)
  let final := (List.range 64).foldl (fun st i =>
    match st with
    | [a, b, c, d, e, f, g, hh] =>
      let s1 := rotr32 6 e ^^^ rotr32 11 e ^^^ rotr32 25 e
      let ch := (e &&& f) ^^^ ((4294967295 - e) &&& g)
      let temp1 := mod32 (hh + mod32 s1 + mod32 ch + sha256K.getD i 0 + w.getD i 0)
      let s0 := rotr32 2 a ^^^ rotr32 13 a ^^^ rotr32 22 a
      let maj := (a &&& b) ^^^ (a &&& c) ^^^ (b &&& c)
      let temp2 := mod32 (mod32 s0 + mod32 maj)
      [mod32 (temp1 + temp2), a, b, c, mod32 (d + temp1), e, f, g]
    | _ => st) h
  List.zipWith (fun x y => mod32 (x + y)) h final

/-- SHA-256 of a byte sequence, as 32 output bytes. -/
def sha256Bytes (msg : List Nat) : List Nat :=
  (((chunks64 (sha256Pad msg)).foldl compress256 sha256H0).map (natToBytesBE 4)).flatten

/-- Lowercase hexadecimal digit. -/
def hexDigitLower (n : Nat) : Char :=
  if n < 10 then Char.ofNat (48 + n) else Char.ofNat (87 + n)

/-- Lowercase hexadecimal rendering of a byte sequence. -/
def toHex (bs : List Nat) : String :=
  String.mk ((bs.map (fun b => [hexDigitLower (b / 16), hexDigitLower (b % 16)])).flatten)

/-- Hex-encoded SHA-256 of a string. -/
def sha256hex (s : String) : String := toHex (sha256Bytes (toBytes s))

/-- HMAC-SHA-256 keyed hash. -/
def hmacSha256 (key msg : List Nat) : List Nat :=
  let k0 := if 64 < key.length then sha256Bytes key else key
  let k1 := k0 ++ List.replicate (64 - k0.length) 0
  sha256Bytes ((k1.map (fun b => b ^^^ 92)) ++ sha256Bytes ((k1.map (fun b => b ^^^ 54)) ++ msg))

/-- Lowercases one ASCII letter. -/
def lowerChar (c : Char) : Char :=
  if 'A' ≤ c ∧ c ≤ 'Z' then Char.ofNat (c.toNat + 32) else c

/-- ASCII lowercasing, as applied to header names. -/
def lowerStr (s : String) : String := String.mk (s.data.map lowerChar)

/-- Uppercases one ASCII letter. -/
def upperChar (c : Char) : Char :=
  if 'a' ≤ c ∧ c ≤ 'z' then Char.ofNat (c.toNat - 32) else c

/-- ASCII uppercasing, as applied to the request method. -/
def upperStr (s : String) : String := String.mk (s.data.map upperChar)

/-- Modelled from the spec: canonical header-value normalization (section 4.2
step 4) — values are trimmed and internal whitespace runs are collapsed to
single spaces, except inside double-quoted sections.  The flag arguments track
quoting and whether the previous emitted character was collapsed whitespace. -/
def collapseWsGo : Bool → Bool → List Char → List Char
  | _, _, [] => []
  | inQ, lastWs, c :: rest =>
      if c = '"' then c :: collapseWsGo (!inQ) false rest
      else if inQ then c :: collapseWsGo inQ false rest
      else if c.isWhitespace then
        if lastWs then collapseWsGo inQ true rest
        else ' ' :: collapseWsGo inQ true rest
      else c :: collapseWsGo inQ false rest

/-- Modelled from the spec: the canonical form of a signed header value. -/
def canonValue (v : String) : String :=
  String.mk (collapseWsGo false false (jsTrim v).data)

/-- Character-list lexicographic order, used to sort canonical headers. -/
def strLeGo : List Char → List Char → Bool
  | [], _ => true
  | _ :: _, [] => false
  | a :: as, b :: bs => if a < b then true else if b < a then false else strLeGo as bs

/-- Byte-order comparison on strings. -/
def nameLe (a b : String) : Bool := strLeGo a.data b.data

/-- Insertion into a name-sorted header list. -/
def insertHeader (p : String × String) : List (String × String) → List (String × String)
  | [] => [p]
  | q :: rest => if nameLe p.1 q.1 then p :: q :: rest else q :: insertHeader p rest

/-- Insertion sort of headers by name. -/
def sortHeaders : List (String × String) → List (String × String)
  | [] => []
  | p :: rest => insertHeader p (sortHeaders rest)

/-- Modelled from the spec: canonical headers (section 4.2 step 4) — names
lowercased, values normalized, sorted by name. -/
def canonicalHeaders (hs : List (String × String)) : List (String × String) :=
  sortHeaders (hs.map (fun p => (lowerStr p.1, canonValue p.2)))

/-- Concatenation of a list of strings. -/
def concatStrings : List String → String
  | [] => ""
  | s :: rest => s ++ concatStrings rest

/-- Separator-joined list of strings. -/
def joinWith (sep : String) : List String → String
  | [] => ""
  | [s] => s
  | s :: t :: rest => s ++ sep ++ joinWith sep (t :: rest)

/-- Modelled from the spec: the canonical header block, one `name:value`
line per canonical header. -/
def headersBlock (ch : List (String × String)) : String :=
  concatStrings (ch.map (fun p => p.1 ++ ":" ++ p.2 ++ "\n"))

/-- Modelled from the spec: the semicolon-joined signed-headers list. -/
def signedHeadersList (ch : List (String × String)) : String :=
  joinWith ";" (ch.map Prod.fst)

/-- Uppercase hexadecimal digit, for percent-encoding. -/
def hexDigitUpper (n : Nat) : Char :=
  if n < 10 then Char.ofNat (48 + n) else Char.ofNat (55 + n)

/-- RFC 3986 unreserved characters, which percent-encoding leaves intact. -/
def isUnreserved (c : Char) : Bool :=
  c.isAlphanum || c = '-' || c = '.' || c = '_' || c = '~'

/-- Percent-encoding of one character over its UTF-8 bytes. -/
def uriEncodeChar (c : Char) : List Char :=
  if isUnreserved c then [c]
  else ((utf8Bytes c).map (fun b => ['%', hexDigitUpper (b / 16), hexDigitUpper (b % 16)])).flatten

/-- Modelled from the spec: percent-encoding per RFC 3986 unreserved rules. -/
def uriEncode (s : String) : String := String.mk ((s.data.map uriEncodeChar).flatten)

/-- Splitting helper on a separator character. -/
def splitOnCharGo (sep : Char) : List Char → List Char → List (List Char)
  | [], cur => [cur.reverse]
  | c :: rest, cur =>
      if c = sep then cur.reverse :: splitOnCharGo sep rest []
      else splitOnCharGo sep rest (c :: cur)

/-- Splits a character list on a separator character. -/
def splitOnChar (sep : Char) (cs : List Char) : List (List Char) := splitOnCharGo sep cs []

/-- Modelled from the spec: the canonical URI (section 4.2 step 2) — each path
segment percent-encoded; the empty path becomes a single slash. -/
def canonicalURI (p : String) : String :=
  if p = "" then "/"
  else joinWith "/" ((splitOnChar '/' p.data).map (fun seg => uriEncode (String.mk seg)))

/-- Splits one raw query pair at its first equals sign. -/
def splitEqGo : List Char → List Char → List Char × List Char
  | [], acc => (acc.reverse, [])
  | c :: rest, acc => if c = '=' then (acc.reverse, rest) else splitEqGo rest (c :: acc)

/-- Percent-encodes one raw `key=value` pair. -/
def encodePair (cs : List Char) : String :=
  let kv := splitEqGo cs []
  uriEncode (String.mk kv.1) ++ "=" ++ uriEncode (String.mk kv.2)

/-- Insertion into a sorted string list. -/
def insertStr (s : String) : List String → List String
  | [] => [s]
  | t :: rest => if nameLe s t then s :: t :: rest else t :: insertStr s rest

/-- Insertion sort of strings in byte order. -/
def sortStrings : List String → List String
  | [] => []
  | s :: rest => insertStr s (sortStrings rest)

/-- Modelled from the spec: the canonical query string (section 4.2 step 3) —
pairs percent-encoded and sorted ascending, joined with ampersands; an absent
query is the empty string.  Multi-valued keys stay as separate pairs. -/
def canonicalQuery (raw : String) : String :=
  if raw = "" then ""
  else joinWith "&" (sortStrings ((splitOnChar '&' raw.data).map encodePair))

/-- Splits a path-with-query at the first question mark; the query part is
returned without the question mark. -/
def splitQueryGo : List Char → List Char → String × String
  | [], acc => (String.mk acc.reverse, "")
  | c :: rest, acc =>
      if c = '?' then (String.mk acc.reverse, String.mk rest) else splitQueryGo rest (c :: acc)

/-- Splits the signing path into raw path and raw query. -/
def splitQuery (pathq : String) : String × String := splitQueryGo pathq.data []

/-- Modelled from the spec: the SHA-256 hash of the exact body bytes; an
absent body hashes the empty byte sequence (section 4.2 step 6). -/
def payloadHash (body : Option String) : String := sha256hex (body.getD "")

/-- Modelled from the spec: the canonical request (section 4.2 step 7) built
from the normalized method, canonical URI, canonical query, canonical header
block, signed-headers list and payload hash. -/
def canonicalRequestOf (method pathq : String) (hdrs : List (String × String))
    (body : Option String) : String :=
  let pq := splitQuery pathq
  let ch := canonicalHeaders hdrs
  upperStr method ++ "\n" ++ canonicalURI pq.1 ++ "\n" ++ canonicalQuery pq.2 ++ "\n"
    ++ headersBlock ch ++ "\n" ++ signedHeadersList ch ++ "\n" ++ payloadHash body

/-- AWS credentials as read from the environment by the processor; missing
environment variables are `none`. -/
structure Credentials where
  accessKeyId : Option String
  secretAccessKey : Option String
  sessionToken : Option String

/-- The signing scope: calendar date, region and service. -/
structure SigningScope where
  date : String
  region : String
  service : String

/-- The slash-joined credential scope embedded in the Authorization header. -/
def credentialScope (scope : SigningScope) : String :=
  scope.date ++ "/" ++ scope.region ++ "/" ++ scope.service ++ "/aws4_request"

/-- Modelled from the spec: the scoped signing-key derivation (section 4.3) —
a keyed-hash chain seeded with AWS4 and the secret, then keyed successively
with date, region, service and the aws4_request literal. -/
def deriveSigningKey (secret : String) (scope : SigningScope) : List Nat :=
  hmacSha256
    (hmacSha256
      (hmacSha256
        (hmacSha256 (toBytes ("AWS4" ++ secret)) (toBytes scope.date))
        (toBytes scope.region))
      (toBytes scope.service))
    (toBytes "aws4_request")

/-- The options object handed to the signer by the processor. -/
structure SignOpts where
  host : String
  method : String
  path : String
  service : String
  region : String
  headers : List (String × String)
  body : Option String

/-- JavaScript object-spread update: replaces the value of an existing key in
place, otherwise appends the binding. -/
def objSet (hs : List (String × String)) (k v : String) : List (String × String) :=
  if hs.any (fun p => p.1 == k) then hs.map (fun p => if p.1 == k then (k, v) else p)
  else hs ++ [(k, v)]

/-- Modelled from the spec: the headers the signer canonicalizes and signs —
the caller headers plus the timestamp header and, when a session token is
present, the security-token header. -/
def headersToSign (opts : SignOpts) (creds : Credentials) (ts : String) :
    List (String × String) :=
  let h1 := objSet opts.headers "X-Amz-Date" ts
  match creds.sessionToken with
  | some tok => objSet h1 "X-Amz-Security-Token" tok
  | none => h1

/-- The signing scope derived from the signing timestamp and the options, the
date being the first eight characters of the timestamp. -/
def scopeOf (opts : SignOpts) (ts : String) : SigningScope :=
  ⟨String.mk (ts.data.take 8), opts.region, opts.service⟩

/-- Modelled from the spec: the string to sign (section 4.2 step 8). -/
def stringToSign (ts : String) (scope : SigningScope) (creq : String) : String :=
  "AWS4-HMAC-SHA256\n" ++ ts ++ "\n" ++ credentialScope scope ++ "\n" ++ sha256hex creq

/-- Modelled from the spec: the final hex signature — the keyed hash of the
string to sign under the derived scoped key (section 4.3). -/
def signatureOf (opts : SignOpts) (creds : Credentials) (ts : String) : String :=
  toHex (hmacSha256
    (deriveSigningKey (creds.secretAccessKey.getD "") (scopeOf opts ts))
    (toBytes (stringToSign ts (scopeOf opts ts)
      (canonicalRequestOf opts.method opts.path (headersToSign opts creds ts) opts.body))))

/-- The failure kinds of the signing component. -/
inductive SignError where
  | MissingCredentials
deriving DecidableEq

/-- The signer output: the headers to install on the request. -/
structure SignedResult where
  headers : List (String × String)

/-- Modelled from the spec: the signer entry point standing for `aws4.sign`
(the aws4 library is a dependency whose code is not part of this repository).
A missing access key or secret fails with MissingCredentials before any
header is produced; otherwise the headers are extended with the timestamp,
optional security token and the assembled Authorization header. -/
def aws4sign (opts : SignOpts) (creds : Credentials) (ts : String) :
    Except SignError SignedResult :=
  match creds.accessKeyId, creds.secretAccessKey with
  | some ak, some _ =>
      let hs := headersToSign opts creds ts
      let auth := "AWS4-HMAC-SHA256 Credential=" ++ ak ++ "/" ++ credentialScope (scopeOf opts ts)
        ++ ", SignedHeaders=" ++ signedHeadersList (canonicalHeaders hs)
        ++ ", Signature=" ++ signatureOf opts creds ts
      .ok ⟨objSet hs "Authorization" auth⟩
  | _, _ => .error .MissingCredentials

/-- An Artillery request descriptor as the hooks see it: URL, method, headers,
optional structured JSON payload and optional serialized body. -/
structure RequestParams where
  url : String
  method : String
  headers : List (String × String)
  json : Option JsonVal
  body : Option String

/-- The two pieces of Node `url.parse` output the pipeline reads. -/
structure ParsedUrl where
  pathname : String
  search : String

/-- Scans for the first scheme separator and returns what follows it. -/
def afterScheme : List Char → Option (List Char)
  | c :: c2 :: c3 :: r =>
      if c = ':' ∧ c2 = '/' ∧ c3 = '/' then some r else afterScheme (c2 :: c3 :: r)
  | _ => none

/-- Drops a host portion: everything before the first slash. -/
def dropHost : List Char → List Char
  | [] => []
  | c :: rest => if c = '/' then c :: rest else dropHost rest

/-- Splits at the first question mark, keeping it in the search part, which is
empty when there is no query — matching `parsedUrl.search || ""`. -/
def urlSplitQ : List Char → List Char → String × String
  | [], acc => (String.mk acc.reverse, "")
  | c :: rest, acc =>
      if c = '?' then (String.mk acc.reverse, String.mk (c :: rest))
      else urlSplitQ rest (c :: acc)

/-- Modelled from the spec: the URL splitting performed by the Node `url`
module (a dependency outside this repository) for the URL shapes the pipeline
exercises — an optional scheme and host are stripped, and the remainder is
split into pathname and search. -/
def urlParse (s : String) : ParsedUrl :=
  let cs := s.data
  let rest :=
    if cs.head? = some '/' then cs
    else
      match afterScheme cs with
      | some afterS => dropHost afterS
      | none => cs
  let pq := urlSplitQ rest []
  ⟨pq.1, pq.2⟩

/-- The canonical path of the pipeline: pathname plus search of the resolved
URL (src/unnamed/part_000 lines 151-153). -/
def canonicalPathOf (rp : RequestParams) (vars : Vars) : String :=
  let p := urlParse (resolveTemplate rp.url vars)
  p.pathname ++ p.search

/-- Environment configuration the processor reads at start: target host and
region. -/
structure Env where
  targetHost : String
  region : String

/-- The body the pipeline signs: the template-resolved serialization of the
structured JSON payload, when one is present (src/unnamed/part_000 lines
156-170). -/
def resolvedBody (rp : RequestParams) (vars : Vars) : Option String :=
  rp.json.map (fun j => resolveTemplate (stringify j) vars)

/-- The canonical signing options built by `signRequest`
(src/unnamed/part_000 lines 177-189). -/
def buildOpts (rp : RequestParams) (vars : Vars) (env : Env) : SignOpts :=
  { host := env.targetHost
    method := rp.method
    path := canonicalPathOf rp vars
    service := "execute-api"
    region := env.region
    headers := objSet rp.headers "Host" env.targetHost
    body := resolvedBody rp vars }

/-- Outcome of a beforeRequest hook: the (possibly mutated) request descriptor
and the error passed to the continuation, `none` meaning a plain `next()`. -/
structure SignOutcome where
  params : RequestParams
  err : Option SignError

/-- Model of `signRequest` from src/unnamed/part_000 (lines 148-208): resolve
the URL, serialize and resolve the JSON payload into the body (deleting the
`json` property), sign, and only on success install the signed headers and
the canonical path; a failure is passed to the continuation and the headers
and URL keep their prior values. -/
def signRequest (rp : RequestParams) (vars : Vars) (creds : Credentials) (ts : String)
    (env : Env) : SignOutcome :=
  let rp1 :=
    match rp.json with
    | some j => { rp with body := some (resolveTemplate (stringify j) vars), json := none }
    | none => rp
  match aws4sign (buildOpts rp vars env) creds ts with
  | .error e => ⟨rp1, some e⟩
  | .ok signed => ⟨{ rp1 with url := canonicalPathOf rp vars, headers := signed.headers }, none⟩

/-- The signing options built by the legacy `signRequest` in
src/utilities/custom-artillery-utils.js (lines 86-99): the body is the
serialized JSON payload with no template resolution, and the URL is not
resolved either. -/
def buildOptsUtils (rp : RequestParams) (env : Env) : SignOpts :=
  let p := urlParse rp.url
  { host := env.targetHost
    method := if rp.method = "" then "GET" else rp.method
    path := p.pathname ++ p.search
    service := "execute-api"
    region := env.region
    headers := rp.headers
    body := rp.json.map stringify }

/-- Model of the legacy `signRequest` from
src/utilities/custom-artillery-utils.js (lines 86-111): signs the serialized
JSON body as-is, installs the signed headers, and sets the body when one was
built; the `json` property and the URL are left in place. -/
def signRequestUtils (rp : RequestParams) (creds : Credentials) (ts : String)
    (env : Env) : SignOutcome :=
  match aws4sign (buildOptsUtils rp env) creds ts with
  | .error e => ⟨rp, some e⟩
  | .ok signed =>
      let rp1 := { rp with headers := signed.headers }
      ⟨match (buildOptsUtils rp env).body with
        | some b => { rp1 with body := some b }
        | none => rp1, none⟩

/-- A request descriptor with a templated JSON payload, used as concrete test
input. -/
def rpC1 : RequestParams :=
  { url := "/prod/item"
    method := "POST"
    headers := [("Content-Type", "application/json")]
    json := some (.jObj [("v", .jStr "\x7b\x7bname\x7d\x7d")])
    body := none }

/-- A variable context binding `name` to the string `42`. -/
def varsC1 : Vars := [("name", .jStr "42")]

/-- A concrete environment configuration. -/
def envC1 : Env := ⟨"api.example.com", "us-east-1"⟩

/-- Complete concrete credentials. -/
def credsOk : Credentials := ⟨some "AKIDEXAMPLE", some "SECRETKEY", none⟩

/-- Claim C1 (code evaluation at the failing input): on a payload containing
the placeholder, the legacy pipeline of custom-artillery-utils.js signs and
transmits the serialized body with the literal placeholder, while the fixed
pipeline of src/unnamed/part_000 signs and transmits the resolved body
containing `42`. -/
theorem signing_body_resolution_divergence :
    (buildOptsUtils rpC1 envC1).body = some "\x7b\"v\":\"\x7b\x7bname\x7d\x7d\"\x7d"
    ∧ (buildOpts rpC1 varsC1 envC1).body = some "\x7b\"v\":\"42\"\x7d"
    ∧ (signRequestUtils rpC1 credsOk "20240101T000000Z" envC1).params.body
        = some "\x7b\"v\":\"\x7b\x7bname\x7d\x7d\"\x7d"
    ∧ (signRequest rpC1 varsC1 credsOk "20240101T000000Z" envC1).params.body
        = some "\x7b\"v\":\"42\"\x7d" := by
  refine ⟨by decide, by decide, by decide, by decide⟩

/-- Claim C3: when the secret access key (or the access key id) is missing,
the signing pipeline fails with MissingCredentials and the descriptor's
headers are untouched — no partial Authorization header is installed. -/
theorem signRequest_missing_credentials (rp : RequestParams) (vars : Vars)
    (creds : Credentials) (ts : String) (env : Env)
    (h : creds.secretAccessKey = none ∨ creds.accessKeyId = none) :
    (signRequest rp vars creds ts env).err = some SignError.MissingCredentials
    ∧ (signRequest rp vars creds ts env).params.headers = rp.headers := by
  obtain ⟨ak, sk, tok⟩ := creds
  have hsign : aws4sign (buildOpts rp vars env) ⟨ak, sk, tok⟩ ts
      = .error .MissingCredentials := by
    rcases h with h | h
    · simp only at h
      subst h
      cases ak <;> rfl
    · simp only at h
      subst h
      rfl
  unfold signRequest
  rw [hsign]
  cases hj : rp.json <;> simp

/-- Witness for claim C3 at concrete inputs with a missing secret key. -/
theorem signRequest_missing_credentials_witness :
    ((⟨some "AKIDEXAMPLE", none, none⟩ : Credentials).secretAccessKey = none
      ∨ (⟨some "AKIDEXAMPLE", none, none⟩ : Credentials).accessKeyId = none)
    ∧ (signRequest rpC1 varsC1 ⟨some "AKIDEXAMPLE", none, none⟩ "20240101T000000Z" envC1).err
        = some SignError.MissingCredentials
    ∧ (signRequest rpC1 varsC1 ⟨some "AKIDEXAMPLE", none, none⟩ "20240101T000000Z" envC1).params.headers
        = rpC1.headers :=
  ⟨Or.inl rfl,
    signRequest_missing_credentials rpC1 varsC1 ⟨some "AKIDEXAMPLE", none, none⟩
      "20240101T000000Z" envC1 (Or.inl rfl)⟩

/-- Claim C4: the pipeline surfaces a signing failure exactly as the error
passed to the continuation, and completes without error exactly when the
signer succeeded — a failed request is never finished as if signed. -/
theorem signRequest_surfaces_failures (rp : RequestParams) (vars : Vars)
    (creds : Credentials) (ts : String) (env : Env) :
    (∀ e, (signRequest rp vars creds ts env).err = some e ↔
        aws4sign (buildOpts rp vars env) creds ts = .error e)
    ∧ ((signRequest rp vars creds ts env).err = none ↔
        ∃ s, aws4sign (buildOpts rp vars env) creds ts = .ok s) := by
  cases hs : aws4sign (buildOpts rp vars env) creds ts <;>
    cases hj : rp.json <;> simp [signRequest, hj, hs]

/-- Claim C6: signing is deterministic — identical descriptor, context,
credentials, environment and timestamp produce the identical outcome
(headers included) and the byte-for-byte identical signature. -/
theorem signRequest_deterministic (rp₁ rp₂ : RequestParams) (vars₁ vars₂ : Vars)
    (creds₁ creds₂ : Credentials) (ts₁ ts₂ : String) (env₁ env₂ : Env)
    (h1 : rp₁ = rp₂) (h2 : vars₁ = vars₂) (h3 : creds₁ = creds₂) (h4 : ts₁ = ts₂)
    (h5 : env₁ = env₂) :
    signRequest rp₁ vars₁ creds₁ ts₁ env₁ = signRequest rp₂ vars₂ creds₂ ts₂ env₂
    ∧ signatureOf (buildOpts rp₁ vars₁ env₁) creds₁ ts₁
        = signatureOf (buildOpts rp₂ vars₂ env₂) creds₂ ts₂ := by
  subst h1 h2 h3 h4 h5
  exact ⟨rfl, rfl⟩

/-- Witness for claim C6 at concrete inputs. -/
theorem signRequest_deterministic_witness :
    signRequest rpC1 varsC1 credsOk "20240101T000000Z" envC1
      = signRequest rpC1 varsC1 credsOk "20240101T000000Z" envC1
    ∧ signatureOf (buildOpts rpC1 varsC1 envC1) credsOk "20240101T000000Z"
        = signatureOf (buildOpts rpC1 varsC1 envC1) credsOk "20240101T000000Z" :=
  signRequest_deterministic rpC1 rpC1 varsC1 varsC1 credsOk credsOk
    "20240101T000000Z" "20240101T000000Z" envC1 envC1 rfl rfl rfl rfl rfl

/-- Claim C10: after a successful signing call the descriptor's URL is exactly
the path-plus-query of the resolved URL (scheme and host stripped), the
`json` property is gone, and when a JSON payload was present the body is its
resolved serialization. -/
theorem signRequest_success_frame (rp : RequestParams) (vars : Vars)
    (creds : Credentials) (ts : String) (env : Env)
    (h : (signRequest rp vars creds ts env).err = none) :
    (signRequest rp vars creds ts env).params.url = canonicalPathOf rp vars
    ∧ (signRequest rp vars creds ts env).params.json = none
    ∧ (∀ j, rp.json = some j →
        (signRequest rp vars creds ts env).params.body
          = some (resolveTemplate (stringify j) vars)) := by
  cases hs : aws4sign (buildOpts rp vars env) creds ts <;>
    cases hj : rp.json <;> simp [signRequest, hj, hs] at h ⊢

/-- A request descriptor whose URL carries scheme, host and a templated query,
with a templated JSON payload. -/
def rpC10 : RequestParams :=
  { url := "https://api.example.com/prod/item?id=\x7b\x7bid\x7d\x7d"
    method := "POST"
    headers := [("Content-Type", "application/json")]
    json := some (.jObj [("q", .jStr "\x7b\x7bid\x7d\x7d")])
    body := none }

/-- A variable context binding `id` to the number `7`. -/
def varsC10 : Vars := [("id", .jNum 7)]

/-- Witness for claim C10: on success the URL keeps only path and query with
the placeholder resolved, the json field is gone, and the body carries the
resolved serialization. -/
theorem signRequest_success_frame_witness :
    (signRequest rpC10 varsC10 credsOk "20240101T000000Z" envC1).err = none
    ∧ (signRequest rpC10 varsC10 credsOk "20240101T000000Z" envC1).params.url
        = "/prod/item?id=7"
    ∧ (signRequest rpC10 varsC10 credsOk "20240101T000000Z" envC1).params.json = none
    ∧ (signRequest rpC10 varsC10 credsOk "20240101T000000Z" envC1).params.body
        = some "\x7b\"q\":\"7\"\x7d" := by
  have h : (signRequest rpC10 varsC10 credsOk "20240101T000000Z" envC1).err = none := by decide
  obtain ⟨h1, h2, h3⟩ :=
    signRequest_success_frame rpC10 varsC10 credsOk "20240101T000000Z" envC1 h
  exact ⟨h, h1.trans (by decide), h2, (h3 _ rfl).trans (by decide)⟩

/-- A family of signing options identical except for the value of the signed
header `x-test`. -/
def optsHdr (v : String) : SignOpts :=
  { host := "api.example.com"
    method := "POST"
    path := "/prod/item"
    service := "execute-api"
    region := "us-east-1"
    headers := [("host", "api.example.com"), ("x-test", v)]
    body := some "BODY" }

/-- Claim C7 counterexample: two signing runs that differ only in the value of
the single signed header `x-test` — `abc` versus `abc` with a trailing
space — produce the same signature, because canonical header values are
trimmed and whitespace-collapsed before signing. -/
theorem header_change_same_signature :
    (optsHdr "abc").headers ≠ (optsHdr "abc ").headers
    ∧ signatureOf (optsHdr "abc") credsOk "20240101T000000Z"
        = signatureOf (optsHdr "abc ") credsOk "20240101T000000Z" := by
  constructor
  · decide
  · have hm : (optsHdr "abc").method = (optsHdr "abc ").method := rfl
    have hp : (optsHdr "abc").path = (optsHdr "abc ").path := rfl
    have hb : (optsHdr "abc").body = (optsHdr "abc ").body := rfl
    have hsc : scopeOf (optsHdr "abc") "20240101T000000Z"
        = scopeOf (optsHdr "abc ") "20240101T000000Z" := rfl
    have hc : canonicalHeaders (headersToSign (optsHdr "abc") credsOk "20240101T000000Z")
        = canonicalHeaders (headersToSign (optsHdr "abc ") credsOk "20240101T000000Z") := by
      decide
    simp only [signatureOf, stringToSign, canonicalRequestOf]
    rw [hm, hp, hb, hsc, hc]

/-- The canonical request of the `optsHdr` family, before the varying header
value. -/
def preC7 : List Char :=
  "POST\n/prod/item\n\nhost:api.example.com\nx-amz-date:20240101T000000Z\nx-test:".data

/-- The canonical request of the `optsHdr` family, after the varying header
value. -/
def sufC7 : List Char :=
  "\n\nhost;x-amz-date;x-test\n".data ++ (payloadHash (some "BODY")).data

/-- The canonical request of the `optsHdr` family decomposes around the
canonical form of the varying header value. -/
theorem canonicalRequest_optsHdr (v : String) :
    (canonicalRequestOf (optsHdr v).method (optsHdr v).path
      (headersToSign (optsHdr v) credsOk "20240101T000000Z") (optsHdr v).body).data
    = preC7 ++ ((canonValue v).data ++ sufC7) := by
  have e4 : canonicalHeaders (headersToSign (optsHdr v) credsOk "20240101T000000Z")
      = [("host", "api.example.com"), ("x-amz-date", "20240101T000000Z"),
         ("x-test", canonValue v)] := rfl
  simp only [canonicalRequestOf, e4, headersBlock, signedHeadersList, List.map,
    concatStrings, joinWith, String.data_append, preC7, sufC7, List.append_assoc,
    show (optsHdr v).method = "POST" from rfl,
    show (optsHdr v).path = "/prod/item" from rfl,
    show (optsHdr v).body = some "BODY" from rfl]
  rfl

/-- Claim C7 amended: changing the value of a single signed header changes the
canonical request that is hashed and signed, provided the two values differ
after canonical normalization (trimming and whitespace collapsing); values
equal after normalization produce the identical signature. -/
theorem header_change_changes_canonical_request (v₁ v₂ : String)
    (h : canonValue v₁ ≠ canonValue v₂) :
    canonicalRequestOf (optsHdr v₁).method (optsHdr v₁).path
        (headersToSign (optsHdr v₁) credsOk "20240101T000000Z") (optsHdr v₁).body
      ≠ canonicalRequestOf (optsHdr v₂).method (optsHdr v₂).path
        (headersToSign (optsHdr v₂) credsOk "20240101T000000Z") (optsHdr v₂).body := by
  intro heq
  apply h
  have hd := congrArg String.data heq
  rw [canonicalRequest_optsHdr v₁, canonicalRequest_optsHdr v₂] at hd
  have h2 := List.append_cancel_left hd
  have h3 := List.append_cancel_right h2
  calc canonValue v₁ = String.mk (canonValue v₁).data := (stringMkData _).symm
    _ = String.mk (canonValue v₂).data := by rw [h3]
    _ = canonValue v₂ := stringMkData _

/-- Witness for the amended claim C7 at two concrete canonically distinct
header values. -/
theorem header_change_changes_canonical_request_witness :
    canonValue "alpha" ≠ canonValue "beta"
    ∧ canonicalRequestOf (optsHdr "alpha").method (optsHdr "alpha").path
        (headersToSign (optsHdr "alpha") credsOk "20240101T000000Z") (optsHdr "alpha").body
      ≠ canonicalRequestOf (optsHdr "beta").method (optsHdr "beta").path
        (headersToSign (optsHdr "beta") credsOk "20240101T000000Z") (optsHdr "beta").body :=
  ⟨by decide, header_change_changes_canonical_request "alpha" "beta" (by decide)⟩

/-- The three append-only log destinations of the processor. -/
structure Logs where
  responses : List String
  errors : List String
  debug : List String

/-- Model of `logToFile`: one appended line carrying the ISO timestamp. -/
def logLine (ts msg : String) : String := "[" ++ ts ++ "] " ++ msg ++ "\n"

/-- A received HTTP response as the afterResponse hook reads it. -/
structure Response where
  statusCode : Nat
  body : Option String

/-- JS `text.substring(0, 500)` with the ellipsis appended for longer text. -/
def truncate500 (s : String) : String :=
  String.mk (s.data.take 500) ++ (if 500 < s.data.length then "..." else "")

/-- Model of `afterResponse` from src/unnamed/part_000 (lines 218-281): builds
the snippet message and routes one timestamped line by status band — errors
log for status at least 400, responses log for 2xx and 3xx, debug log
otherwise — gated by the response-body flag, with the debug-body flag only
extending the message; the continuation is always called without error.  The
missing-response path logs to the errors log.  Response bodies arrive here
already coerced to text. -/
def afterResponse (rp : RequestParams) (resp : Option Response)
    (dbgBody respBody : Bool) (ts : String) (logs : Logs) : Logs × Option String :=
  let requestUrl := rp.method ++ " " ++ rp.url
  let responseBodyText :=
    match resp with
    | some r =>
        match r.body with
        | some b => b
        | none => "<no response body>"
    | none => "<no response body>"
  let requestBodyText :=
    match rp.body with
    | some b => b
    | none => "<no request body>"
  match resp with
  | none =>
      let errorMsg := "No response received for " ++ requestUrl ++ "."
        ++ (if dbgBody then " Request Body: " ++ truncate500 requestBodyText else "")
      ({ logs with errors := logs.errors ++ [logLine ts errorMsg] }, none)
  | some r =>
      let logMessage := toString r.statusCode ++ " " ++ requestUrl
        ++ " | Response Snippet: " ++ truncate500 responseBodyText
      if 400 ≤ r.statusCode then
        let fullMessage :=
          if dbgBody then logMessage ++ "\nREQUEST BODY: " ++ truncate500 requestBodyText
          else logMessage
        (if respBody then { logs with errors := logs.errors ++ [logLine ts fullMessage] }
         else logs, none)
      else if 200 ≤ r.statusCode ∧ r.statusCode < 400 ∧ respBody = true then
        ({ logs with responses := logs.responses ++ [logLine ts logMessage] }, none)
      else
        (if respBody then
          { logs with debug := logs.debug ++ [logLine ts ("[Other Status] " ++ logMessage)] }
         else logs, none)

/-- Claim C9: the afterResponse hook never passes an error to its
continuation, and routes at most one timestamped line to exactly the log
destination of the status band — status 400 and above to the errors log, 2xx
and 3xx to the responses log, lower codes to the debug log — with the
response-body flag gating whether the line is written at all. -/
theorem afterResponse_routing (rp : RequestParams) (resp : Option Response)
    (dbgBody respBody : Bool) (ts : String) (logs : Logs) :
    (afterResponse rp resp dbgBody respBody ts logs).2 = none
    ∧ (∀ r, resp = some r →
        (400 ≤ r.statusCode →
          (afterResponse rp resp dbgBody respBody ts logs).1.responses = logs.responses
          ∧ (afterResponse rp resp dbgBody respBody ts logs).1.debug = logs.debug
          ∧ (respBody = true →
              ∃ m, (afterResponse rp resp dbgBody respBody ts logs).1.errors
                = logs.errors ++ [logLine ts m])
          ∧ (respBody = false →
              (afterResponse rp resp dbgBody respBody ts logs).1.errors = logs.errors))
        ∧ (200 ≤ r.statusCode → r.statusCode < 400 →
          (afterResponse rp resp dbgBody respBody ts logs).1.errors = logs.errors
          ∧ (afterResponse rp resp dbgBody respBody ts logs).1.debug = logs.debug
          ∧ (respBody = true →
              ∃ m, (afterResponse rp resp dbgBody respBody ts logs).1.responses
                = logs.responses ++ [logLine ts m])
          ∧ (respBody = false →
              (afterResponse rp resp dbgBody respBody ts logs).1.responses = logs.responses))
        ∧ (r.statusCode < 200 →
          (afterResponse rp resp dbgBody respBody ts logs).1.responses = logs.responses
          ∧ (afterResponse rp resp dbgBody respBody ts logs).1.errors = logs.errors
          ∧ (respBody = true →
              ∃ m, (afterResponse rp resp dbgBody respBody ts logs).1.debug
                = logs.debug ++ [logLine ts m])
          ∧ (respBody = false →
              (afterResponse rp resp dbgBody respBody ts logs).1.debug = logs.debug))) := by
  cases resp with
  | none => simp [afterResponse]
  | some r =>
      constructor
      · simp only [afterResponse]
        split_ifs <;> rfl
      · intro r' hr'
        rw [Option.some.injEq] at hr'
        subst hr'
        refine ⟨?_, ?_, ?_⟩
        · intro h400
          cases respBody <;> cases dbgBody <;>
            simp [afterResponse, h400]
        · intro h200 h400
          have hn : ¬ 400 ≤ r.statusCode := by omega
          cases respBody <;> cases dbgBody <;>
            simp [afterResponse, hn, h200, h400]
        · intro hlow
          have hn : ¬ 400 ≤ r.statusCode := by omega
          have hn2 : ¬ 200 ≤ r.statusCode := by omega
          cases respBody <;> cases dbgBody <;>
            simp [afterResponse, hn, hn2]

/-- Empty log state. -/
def logs0 : Logs := ⟨[], [], []⟩

/-- Witness for claim C9: a 404 response with both flags on routes one
timestamped line to the errors log only, and the continuation receives no
error. -/
theorem afterResponse_routing_witness :
    (afterResponse rpC1 (some ⟨404, some "not found"⟩) true true "T" logs0).2 = none
    ∧ (afterResponse rpC1 (some ⟨404, some "not found"⟩) true true "T" logs0).1.responses
        = logs0.responses
    ∧ (afterResponse rpC1 (some ⟨404, some "not found"⟩) true true "T" logs0).1.debug
        = logs0.debug
    ∧ ∃ m, (afterResponse rpC1 (some ⟨404, some "not found"⟩) true true "T" logs0).1.errors
        = logs0.errors ++ [logLine "T" m] := by
  obtain ⟨hnone, hband⟩ :=
    afterResponse_routing rpC1 (some ⟨404, some "not found"⟩) true true "T" logs0
  obtain ⟨hresp, hdbg, hex, -⟩ := (hband _ rfl).1 (by decide)
  exact ⟨hnone, hresp, hdbg, hex rfl⟩

/-- A file system for the loader: path to contents bindings, `readFileSync`
failing on any unbound path. -/
abbrev FileSystem := List (String × String)

/-- Model of `fs.readFileSync`: the bound contents, or a thrown error for a
missing path. -/
def readFile (fs : FileSystem) (path : String) : Except String String :=
  match fs.find? (fun p => p.1 == path) with
  | some p => .ok p.2
  | none => .error ("ENOENT: no such file or directory " ++ path)

/-- Splits a character list into lines. -/
def splitLinesStr (s : String) : List String :=
  (splitOnChar '\n' s.data).map (fun l => String.mk l)

/-- Modelled from the spec: the CSV parse of the csv-parse dependency (whose
code is not part of this repository) with `columns: true` and
`skip_empty_lines: true` — the first nonempty line names the columns, each
further nonempty line becomes one record mapping column name to field, in
file order; a row whose field count differs from the header is a thrown
parse error. -/
def parseCsv (content : String) : Except String (List (List (String × String))) :=
  let lines := (splitLinesStr content).filter (fun l => l != "")
  match lines with
  | [] => .ok []
  | header :: rows =>
      let cols := (splitOnChar ',' header.data).map (fun l => String.mk l)
      if rows.all (fun r => (splitOnChar ',' r.data).length == cols.length) then
        .ok (rows.map (fun r => cols.zip ((splitOnChar ',' r.data).map (fun l => String.mk l))))
      else .error "Invalid Record Length"

/-- The reading-and-parsing composition whose failure the loader catches. -/
def csvResult (fs : FileSystem) (filePath : String) :
    Except String (List (List (String × String))) :=
  match readFile fs filePath with
  | .error e => .error e
  | .ok content => parseCsv content

/-- Model of `loadCsvData` from src/unnamed/part_000 (lines 97-110): on
success the parsed records are returned and a debug line is logged; any
thrown failure is caught, an error line is appended to the errors log, and
the empty sequence is returned — the caller never sees a thrown fault. -/
def loadCsvData (fs : FileSystem) (filePath : String) (ts : String) (logs : Logs) :
    List (List (String × String)) × Logs :=
  match csvResult fs filePath with
  | .error e =>
      ([], { logs with errors :=
          logs.errors ++ [logLine ts ("CSV Load Failed for " ++ filePath ++ ": " ++ e)] })
  | .ok records =>
      (records, { logs with debug :=
          logs.debug ++ [logLine ts
            ("Loaded " ++ toString records.length ++ " records from CSV: " ++ filePath)] })

/-- Claim C8: the loader returns the ordered parsed records and logs a debug
line on success; on any read or parse failure it returns the empty sequence
and appends one error line, leaving the other logs untouched — it never
throws into the caller (it is a total function of its inputs). -/
theorem loadCsvData_spec (fs : FileSystem) (filePath ts : String) (logs : Logs) :
    (∀ recs, csvResult fs filePath = .ok recs →
      loadCsvData fs filePath ts logs
        = (recs, { logs with debug := logs.debug ++ [logLine ts
            ("Loaded " ++ toString recs.length ++ " records from CSV: " ++ filePath)] }))
    ∧ (∀ e, csvResult fs filePath = .error e →
      (loadCsvData fs filePath ts logs).1 = []
      ∧ (loadCsvData fs filePath ts logs).2.errors
          = logs.errors ++ [logLine ts ("CSV Load Failed for " ++ filePath ++ ": " ++ e)]
      ∧ (loadCsvData fs filePath ts logs).2.responses = logs.responses
      ∧ (loadCsvData fs filePath ts logs).2.debug = logs.debug) := by
  cases hres : csvResult fs filePath <;> simp [loadCsvData, hres]

/-- A concrete file system holding one well-formed CSV fixture. -/
def fsC8 : FileSystem := [("data.csv", "name,age\nalice,30\nbob,25\n")]

/-- Witness for claim C8: the fixture parses to its two records in file order
with a debug line appended, and a missing file yields the empty sequence plus
one error line. -/
theorem loadCsvData_spec_witness :
    csvResult fsC8 "data.csv"
      = .ok [[("name", "alice"), ("age", "30")], [("name", "bob"), ("age", "25")]]
    ∧ loadCsvData fsC8 "data.csv" "T" logs0
      = ([[("name", "alice"), ("age", "30")], [("name", "bob"), ("age", "25")]],
        { logs0 with debug := logs0.debug ++ [logLine "T"
            ("Loaded " ++ toString
              ([[("name", "alice"), ("age", "30")], [("name", "bob"), ("age", "25")]]).length
              ++ " records from CSV: " ++ "data.csv")] })
    ∧ (loadCsvData fsC8 "missing.csv" "T" logs0).1 = []
    ∧ (loadCsvData fsC8 "missing.csv" "T" logs0).2.errors
      = logs0.errors ++ [logLine "T" ("CSV Load Failed for " ++ "missing.csv" ++ ": "
          ++ "ENOENT: no such file or directory missing.csv")] := by
  refine ⟨rfl, ?_, ?_, ?_⟩
  · exact (loadCsvData_spec fsC8 "data.csv" "T" logs0).1 _ rfl
  · exact ((loadCsvData_spec fsC8 "missing.csv" "T" logs0).2
      "ENOENT: no such file or directory missing.csv" rfl).1
  · exact (((loadCsvData_spec fsC8 "missing.csv" "T" logs0).2
      "ENOENT: no such file or directory missing.csv" rfl).2).1
